import Mathlib

/-!
Shallow embedding of the TbO2 6502 emulator (Rust) for specification checking.

Conventions of the embedding:
* Machine integers are `Nat`.  Rust `wrapping_add`/`wrapping_sub` and `as uN`
  casts are embedded with explicit `% 2^N`; a plain (non-wrapping) Rust `+` on
  a machine integer is embedded as plain `Nat` addition, so that overflow of
  the machine-integer range is observable in the model.
* Rust loops are embedded as structural recursion on an explicit fuel argument
  equal to the number of remaining iterations of the source loop.
* Fallible code (`Option`/`Result` in the source, and `unimplemented!` panic
  arms) is embedded with `Option`/`Except`.
* The `debug_*` fields of the `CPU` struct and the trace logging calls are pure
  diagnostics (never read by the semantics) and are not modelled.
-/

namespace TbO2

/-- Instruction mnemonics.  The first 31 variants are the `Inst` enum of
`src/inst.rs`; the remaining variants (flag ops, compares, branches, jumps,
BRK/RTI, BIT, NOP, and the PHX/PHY/PLX/PLY pushes/pulls) are required by the
exhaustive `match` in `CPU::step` (`src/cpu.rs`), whose source is the
authority for their semantics. -/
inductive Inst where
  | LDA | LDX | LDY
  | STA | STX | STY
  | TAX | TAY | TSX | TXA | TXS | TYA
  | PHA | PHP | PLA | PLP
  | DEC | DEX | DEY | INC | INX | INY
  | ADC | SBC
  | AND | EOR | ORA
  | ASL | LSR | ROL | ROR
  | PHX | PHY | PLX | PLY
  | CLC | CLD | CLI | CLV | SEC | SED | SEI
  | CMP | CPX | CPY
  | BRA | BCC | BCS | BNE | BEQ | BPL | BMI | BVC | BVS
  | JMP | JSR | RTS
  | BRK | RTI
  | BIT | NOP
deriving DecidableEq, Repr

/-- The `AddressingMode` enum of `src/inst.rs`. -/
inductive AddressingMode where
  | Implied
  | Immediate
  | Absolute
  | AbsoluteX
  | AbsoluteY
  | Indirect
  | XIndirect
  | IndirectY
  | Relative
  | ZeroPage
  | ZeroPageX
  | ZeroPageY
deriving DecidableEq, Repr

open Inst AddressingMode in
/-- The opcode arms present verbatim in `decode_inst` of `src/inst.rs`
(loads, stores, transfers, PHA/PHP/PLA/PLP, inc/dec, ADC/SBC, logical ops,
shifts and rotates). -/
def decode_inst_src (byte : Nat) : Option (Inst × AddressingMode) :=
  match byte with
  | 0xA9 => some (LDA, Immediate)
  | 0xA5 => some (LDA, ZeroPage)
  | 0xB5 => some (LDA, ZeroPageX)
  | 0xAD => some (LDA, Absolute)
  | 0xBD => some (LDA, AbsoluteX)
  | 0xB9 => some (LDA, AbsoluteY)
  | 0xA1 => some (LDA, XIndirect)
  | 0xB1 => some (LDA, IndirectY)
  | 0xA2 => some (LDX, Immediate)
  | 0xA6 => some (LDX, ZeroPage)
  | 0xB6 => some (LDX, ZeroPageY)
  | 0xAE => some (LDX, Absolute)
  | 0xBE => some (LDX, AbsoluteY)
  | 0xA0 => some (LDY, Immediate)
  | 0xA4 => some (LDY, ZeroPage)
  | 0xB4 => some (LDY, ZeroPageX)
  | 0xAC => some (LDY, Absolute)
  | 0xBC => some (LDY, AbsoluteX)
  | 0x85 => some (STA, ZeroPage)
  | 0x95 => some (STA, ZeroPageX)
  | 0x8D => some (STA, Absolute)
  | 0x9D => some (STA, AbsoluteX)
  | 0x99 => some (STA, AbsoluteY)
  | 0x81 => some (STA, XIndirect)
  | 0x91 => some (STA, IndirectY)
  | 0x86 => some (STX, ZeroPage)
  | 0x96 => some (STX, ZeroPageY)
  | 0x8E => some (STX, Absolute)
  | 0x84 => some (STY, ZeroPage)
  | 0x94 => some (STY, ZeroPageX)
  | 0x8C => some (STY, Absolute)
  | 0xAA => some (TAX, Implied)
  | 0xA8 => some (TAY, Implied)
  | 0xBA => some (TSX, Implied)
  | 0x8A => some (TXA, Implied)
  | 0x9A => some (TXS, Implied)
  | 0x98 => some (TYA, Implied)
  | 0x48 => some (PHA, Implied)
  | 0x08 => some (PHP, Implied)
  | 0x68 => some (PLA, Implied)
  | 0x28 => some (PLP, Implied)
  | 0xC6 => some (DEC, ZeroPage)
  | 0xD6 => some (DEC, ZeroPageX)
  | 0xCE => some (DEC, Absolute)
  | 0xDE => some (DEC, AbsoluteX)
  | 0xCA => some (DEX, Implied)
  | 0x88 => some (DEY, Implied)
  | 0xE6 => some (INC, ZeroPage)
  | 0xF6 => some (INC, ZeroPageX)
  | 0xEE => some (INC, Absolute)
  | 0xFE => some (INC, AbsoluteX)
  | 0xE8 => some (INX, Implied)
  | 0xC8 => some (INY, Implied)
  | 0x69 => some (ADC, Immediate)
  | 0x65 => some (ADC, ZeroPage)
  | 0x75 => some (ADC, ZeroPageX)
  | 0x6D => some (ADC, Absolute)
  | 0x7D => some (ADC, AbsoluteX)
  | 0x79 => some (ADC, AbsoluteY)
  | 0x61 => some (ADC, XIndirect)
  | 0x71 => some (ADC, IndirectY)
  | 0xE9 => some (SBC, Immediate)
  | 0xE5 => some (SBC, ZeroPage)
  | 0xF5 => some (SBC, ZeroPageX)
  | 0xED => some (SBC, Absolute)
  | 0xFD => some (SBC, AbsoluteX)
  | 0xF9 => some (SBC, AbsoluteY)
  | 0xE1 => some (SBC, XIndirect)
  | 0xF1 => some (SBC, IndirectY)
  | 0x29 => some (AND, Immediate)
  | 0x25 => some (AND, ZeroPage)
  | 0x35 => some (AND, ZeroPageX)
  | 0x2D => some (AND, Absolute)
  | 0x3D => some (AND, AbsoluteX)
  | 0x39 => some (AND, AbsoluteY)
  | 0x21 => some (AND, XIndirect)
  | 0x31 => some (AND, IndirectY)
  | 0x49 => some (EOR, Immediate)
  | 0x45 => some (EOR, ZeroPage)
  | 0x55 => some (EOR, ZeroPageX)
  | 0x4D => some (EOR, Absolute)
  | 0x5D => some (EOR, AbsoluteX)
  | 0x59 => some (EOR, AbsoluteY)
  | 0x41 => some (EOR, XIndirect)
  | 0x51 => some (EOR, IndirectY)
  | 0x09 => some (ORA, Immediate)
  | 0x05 => some (ORA, ZeroPage)
  | 0x15 => some (ORA, ZeroPageX)
  | 0x0D => some (ORA, Absolute)
  | 0x1D => some (ORA, AbsoluteX)
  | 0x19 => some (ORA, AbsoluteY)
  | 0x01 => some (ORA, XIndirect)
  | 0x11 => some (ORA, IndirectY)
  | 0x0A => some (ASL, Implied)
  | 0x06 => some (ASL, ZeroPage)
  | 0x16 => some (ASL, ZeroPageX)
  | 0x0E => some (ASL, Absolute)
  | 0x1E => some (ASL, AbsoluteX)
  | 0x4A => some (LSR, Implied)
  | 0x46 => some (LSR, ZeroPage)
  | 0x56 => some (LSR, ZeroPageX)
  | 0x4E => some (LSR, Absolute)
  | 0x5E => some (LSR, AbsoluteX)
  | 0x2A => some (ROL, Implied)
  | 0x26 => some (ROL, ZeroPage)
  | 0x36 => some (ROL, ZeroPageX)
  | 0x2E => some (ROL, Absolute)
  | 0x3E => some (ROL, AbsoluteX)
  | 0x6A => some (ROR, Implied)
  | 0x66 => some (ROR, ZeroPage)
  | 0x76 => some (ROR, ZeroPageX)
  | 0x6E => some (ROR, Absolute)
  | 0x7E => some (ROR, AbsoluteX)
  | _ => none

open Inst AddressingMode in
/-- Modelled from the spec: the decode arms for the flag set/clear operations,
compares, branches, jumps/JSR/RTS, BRK/RTI, BIT and NOP.  These mnemonics are
dispatched by the exhaustive `match` in `CPU::step` (`src/cpu.rs`), but the
copy of `src/inst.rs` in the snapshot predates them (its `Inst` enum stops at
`ROR`), so their decode entries are missing from the sources.  Per the spec,
the decoder "must match the published hardware opcode table bit-for-bit", so
these arms are the published 6502 opcode-table entries for those mnemonics. -/
def decode_inst_missing (byte : Nat) : Option (Inst × AddressingMode) :=
  match byte with
  | 0x18 => some (CLC, Implied)
  | 0xD8 => some (CLD, Implied)
  | 0x58 => some (CLI, Implied)
  | 0xB8 => some (CLV, Implied)
  | 0x38 => some (SEC, Implied)
  | 0xF8 => some (SED, Implied)
  | 0x78 => some (SEI, Implied)
  | 0xC9 => some (CMP, Immediate)
  | 0xC5 => some (CMP, ZeroPage)
  | 0xD5 => some (CMP, ZeroPageX)
  | 0xCD => some (CMP, Absolute)
  | 0xDD => some (CMP, AbsoluteX)
  | 0xD9 => some (CMP, AbsoluteY)
  | 0xC1 => some (CMP, XIndirect)
  | 0xD1 => some (CMP, IndirectY)
  | 0xE0 => some (CPX, Immediate)
  | 0xE4 => some (CPX, ZeroPage)
  | 0xEC => some (CPX, Absolute)
  | 0xC0 => some (CPY, Immediate)
  | 0xC4 => some (CPY, ZeroPage)
  | 0xCC => some (CPY, Absolute)
  | 0x10 => some (BPL, Relative)
  | 0x30 => some (BMI, Relative)
  | 0x50 => some (BVC, Relative)
  | 0x70 => some (BVS, Relative)
  | 0x90 => some (BCC, Relative)
  | 0xB0 => some (BCS, Relative)
  | 0xD0 => some (BNE, Relative)
  | 0xF0 => some (BEQ, Relative)
  | 0x4C => some (JMP, Absolute)
  | 0x6C => some (JMP, Indirect)
  | 0x20 => some (JSR, Absolute)
  | 0x60 => some (RTS, Implied)
  | 0x00 => some (BRK, Implied)
  | 0x40 => some (RTI, Implied)
  | 0x24 => some (BIT, ZeroPage)
  | 0x2C => some (BIT, Absolute)
  | 0xEA => some (NOP, Implied)
  | _ => none

/-- `decode_inst` (`src/inst.rs`): the single match of the source, split above
into the arms present in the snapshot and the spec-modelled missing arms
(the two are disjoint). -/
def decode_inst (byte : Nat) : Option (Inst × AddressingMode) :=
  match decode_inst_src byte with
  | some r => some r
  | none => decode_inst_missing byte

open Inst AddressingMode in
/-- The published 6502 opcode table (the 151 legal NMOS opcodes), as the
reference against which the claim compares `decode_inst`.  Listed in the
conventional opcode order of the published table (ascending opcode). -/
def published_opcode_table : List (Nat × Inst × AddressingMode) :=
  [ (0x00, BRK, Implied), (0x01, ORA, XIndirect), (0x05, ORA, ZeroPage),
    (0x06, ASL, ZeroPage), (0x08, PHP, Implied), (0x09, ORA, Immediate),
    (0x0A, ASL, Implied), (0x0D, ORA, Absolute), (0x0E, ASL, Absolute),
    (0x10, BPL, Relative), (0x11, ORA, IndirectY), (0x15, ORA, ZeroPageX),
    (0x16, ASL, ZeroPageX), (0x18, CLC, Implied), (0x19, ORA, AbsoluteY),
    (0x1D, ORA, AbsoluteX), (0x1E, ASL, AbsoluteX),
    (0x20, JSR, Absolute), (0x21, AND, XIndirect), (0x24, BIT, ZeroPage),
    (0x25, AND, ZeroPage), (0x26, ROL, ZeroPage), (0x28, PLP, Implied),
    (0x29, AND, Immediate), (0x2A, ROL, Implied), (0x2C, BIT, Absolute),
    (0x2D, AND, Absolute), (0x2E, ROL, Absolute),
    (0x30, BMI, Relative), (0x31, AND, IndirectY), (0x35, AND, ZeroPageX),
    (0x36, ROL, ZeroPageX), (0x38, SEC, Implied), (0x39, AND, AbsoluteY),
    (0x3D, AND, AbsoluteX), (0x3E, ROL, AbsoluteX),
    (0x40, RTI, Implied), (0x41, EOR, XIndirect), (0x45, EOR, ZeroPage),
    (0x46, LSR, ZeroPage), (0x48, PHA, Implied), (0x49, EOR, Immediate),
    (0x4A, LSR, Implied), (0x4C, JMP, Absolute), (0x4D, EOR, Absolute),
    (0x4E, LSR, Absolute),
    (0x50, BVC, Relative), (0x51, EOR, IndirectY), (0x55, EOR, ZeroPageX),
    (0x56, LSR, ZeroPageX), (0x58, CLI, Implied), (0x59, EOR, AbsoluteY),
    (0x5D, EOR, AbsoluteX), (0x5E, LSR, AbsoluteX),
    (0x60, RTS, Implied), (0x61, ADC, XIndirect), (0x65, ADC, ZeroPage),
    (0x66, ROR, ZeroPage), (0x68, PLA, Implied), (0x69, ADC, Immediate),
    (0x6A, ROR, Implied), (0x6C, JMP, Indirect), (0x6D, ADC, Absolute),
    (0x6E, ROR, Absolute),
    (0x70, BVS, Relative), (0x71, ADC, IndirectY), (0x75, ADC, ZeroPageX),
    (0x76, ROR, ZeroPageX), (0x78, SEI, Implied), (0x79, ADC, AbsoluteY),
    (0x7D, ADC, AbsoluteX), (0x7E, ROR, AbsoluteX),
    (0x81, STA, XIndirect), (0x84, STY, ZeroPage), (0x85, STA, ZeroPage),
    (0x86, STX, ZeroPage), (0x88, DEY, Implied), (0x8A, TXA, Implied),
    (0x8C, STY, Absolute), (0x8D, STA, Absolute), (0x8E, STX, Absolute),
    (0x90, BCC, Relative), (0x91, STA, IndirectY), (0x94, STY, ZeroPageX),
    (0x95, STA, ZeroPageX), (0x96, STX, ZeroPageY), (0x98, TYA, Implied),
    (0x99, STA, AbsoluteY), (0x9A, TXS, Implied), (0x9D, STA, AbsoluteX),
    (0xA0, LDY, Immediate), (0xA1, LDA, XIndirect), (0xA2, LDX, Immediate),
    (0xA4, LDY, ZeroPage), (0xA5, LDA, ZeroPage), (0xA6, LDX, ZeroPage),
    (0xA8, TAY, Implied), (0xA9, LDA, Immediate), (0xAA, TAX, Implied),
    (0xAC, LDY, Absolute), (0xAD, LDA, Absolute), (0xAE, LDX, Absolute),
    (0xB0, BCS, Relative), (0xB1, LDA, IndirectY), (0xB4, LDY, ZeroPageX),
    (0xB5, LDA, ZeroPageX), (0xB6, LDX, ZeroPageY), (0xB8, CLV, Implied),
    (0xB9, LDA, AbsoluteY), (0xBA, TSX, Implied), (0xBC, LDY, AbsoluteX),
    (0xBD, LDA, AbsoluteX), (0xBE, LDX, AbsoluteY),
    (0xC0, CPY, Immediate), (0xC1, CMP, XIndirect), (0xC4, CPY, ZeroPage),
    (0xC5, CMP, ZeroPage), (0xC6, DEC, ZeroPage), (0xC8, INY, Implied),
    (0xC9, CMP, Immediate), (0xCA, DEX, Implied), (0xCC, CPY, Absolute),
    (0xCD, CMP, Absolute), (0xCE, DEC, Absolute),
    (0xD0, BNE, Relative), (0xD1, CMP, IndirectY), (0xD5, CMP, ZeroPageX),
    (0xD6, DEC, ZeroPageX), (0xD8, CLD, Implied), (0xD9, CMP, AbsoluteY),
    (0xDD, CMP, AbsoluteX), (0xDE, DEC, AbsoluteX),
    (0xE0, CPX, Immediate), (0xE1, SBC, XIndirect), (0xE4, CPX, ZeroPage),
    (0xE5, SBC, ZeroPage), (0xE6, INC, ZeroPage), (0xE8, INX, Implied),
    (0xE9, SBC, Immediate), (0xEA, NOP, Implied), (0xEC, CPX, Absolute),
    (0xED, SBC, Absolute), (0xEE, INC, Absolute),
    (0xF0, BEQ, Relative), (0xF1, SBC, IndirectY), (0xF5, SBC, ZeroPageX),
    (0xF6, INC, ZeroPageX), (0xF8, SED, Implied), (0xF9, SBC, AbsoluteY),
    (0xFD, SBC, AbsoluteX), (0xFE, INC, AbsoluteX) ]

/-- Lookup in the published opcode table: the (mnemonic, addressing mode) of a
legal opcode byte, `none` for a byte outside the legal set. -/
def published_lookup (byte : Nat) : Option (Inst × AddressingMode) :=
  (published_opcode_table.find? (fun e => e.1 == byte)).map (·.2)

/-- The `Status` struct of `src/cpu.rs`: seven single-bit flags. -/
structure Status where
  negative : Bool
  overflow : Bool
  break_ : Bool
  decimal : Bool
  int_disable : Bool
  zero : Bool
  carry : Bool
deriving DecidableEq, Repr

/-- `Status::default()`: all flags cleared. -/
def Status.default : Status :=
  { negative := false, overflow := false, break_ := false, decimal := false,
    int_disable := false, zero := false, carry := false }

/-- `impl From<Status> for u8` (`src/cpu.rs`): pack the flags into one byte,
with the reserved bit 5 always set. -/
def statusToByte (s : Status) : Nat :=
  (cond s.negative 1 0) <<< 7 |||
  (cond s.overflow 1 0) <<< 6 |||
  (1 <<< 5) |||
  (cond s.break_ 1 0) <<< 4 |||
  (cond s.decimal 1 0) <<< 3 |||
  (cond s.int_disable 1 0) <<< 2 |||
  (cond s.zero 1 0) <<< 1 |||
  (cond s.carry 1 0)

/-- `impl From<u8> for Status` (`src/cpu.rs`): unpack a byte into the flags. -/
def statusFromByte (v : Nat) : Status :=
  { negative := decide (0 < v &&& 0b10000000)
    overflow := decide (0 < v &&& 0b1000000)
    break_ := decide (0 < v &&& 0b10000)
    decimal := decide (0 < v &&& 0b1000)
    int_disable := decide (0 < v &&& 0b100)
    zero := decide (0 < v &&& 0b10)
    carry := decide (0 < v &&& 0b1) }

/-- The processor state of the `CPU` struct of `src/cpu.rs`.  The `layout`
field is abstracted to the byte view `mem` that `CPU::read_byte` provides
(`layout.read(addr)` with an unmapped read defaulting to 0); `CPU::write_byte`
is a point update of that view.  The `debug_*` fields are not modelled. -/
structure Machine where
  pc : Nat
  sp : Nat
  a : Nat
  x : Nat
  y : Nat
  status : Status
  mem : Nat → Nat

/-- Point update of a byte view (the effect of a `write_byte`). -/
def writeMem (mem : Nat → Nat) (addr v : Nat) : Nat → Nat :=
  fun i => if i = addr then v else mem i

/-- `CPU::read_byte` (`src/cpu.rs`): read through the layout, an unmapped
address yielding 0 (both folded into `mem`). -/
def Machine.read_byte (m : Machine) (addr : Nat) : Nat := m.mem addr

/-- `CPU::write_byte` (`src/cpu.rs`). -/
def Machine.write_byte (m : Machine) (addr data : Nat) : Machine :=
  { m with mem := writeMem m.mem addr data }

/-- `CPU::read_word` (`src/cpu.rs`): little-endian 16-bit read.  The high
byte is read at `addr + 1` with the source's plain (non-wrapping) `u16`
addition, embedded as plain `Nat` addition. -/
def Machine.read_word (m : Machine) (addr : Nat) : Nat :=
  let lo := m.read_byte addr
  let hi := m.read_byte (addr + 1)
  (hi <<< 8) ||| lo

/-- `CPU::get_sp` (`src/cpu.rs`): the stack lives in page 1. -/
def Machine.get_sp (m : Machine) : Nat := m.sp + 0x100

/-- `CPU::push_byte` (`src/cpu.rs`): write at `0x100 + SP`, then decrement
`SP` with wrap-around (`wrapping_sub(1)` embedded as `(sp + 255) % 256`). -/
def Machine.push_byte (m : Machine) (data : Nat) : Machine :=
  let m1 := m.write_byte m.get_sp data
  { m1 with sp := (m1.sp + 255) % 256 }

/-- `CPU::pull_byte` (`src/cpu.rs`): increment `SP` with wrap-around, then
read at `0x100 + SP`.  Returns the new machine and the byte read. -/
def Machine.pull_byte (m : Machine) : Machine × Nat :=
  let m1 := { m with sp := (m.sp + 1) % 256 }
  (m1, m1.read_byte m1.get_sp)

/-- `CPU::next_byte` (`src/cpu.rs`): fetch at `PC`, then advance `PC`
(`wrapping_add(1)`). -/
def Machine.next_byte (m : Machine) : Machine × Nat :=
  let byte := m.read_byte m.pc
  ({ m with pc := (m.pc + 1) % 65536 }, byte)

/-- `CPU::next_word` (`src/cpu.rs`): fetch a word at `PC`, then advance `PC`
by two (`wrapping_add(2)`). -/
def Machine.next_word (m : Machine) : Machine × Nat :=
  let word := m.read_word m.pc
  ({ m with pc := (m.pc + 2) % 65536 }, word)

/-- `CPU::irq` (`src/cpu.rs`): ignored when the Interrupt-disable flag is
set; otherwise push `PC` high then low, push the status byte with Break
cleared, set Interrupt-disable, and load `PC` from the IRQ vector 0xFFFE. -/
def Machine.irq (m : Machine) : Machine :=
  if m.status.int_disable then m
  else
    let m1 := m.push_byte ((m.pc >>> 8) % 256)
    let m2 := m1.push_byte (m.pc &&& 0xFF)
    let m3 := m2.push_byte (statusToByte { m.status with break_ := false })
    let m4 := { m3 with status := { m3.status with int_disable := true } }
    { m4 with pc := m4.read_word 0xFFFE }

/-- `CPU::nmi` (`src/cpu.rs`): like `irq` but unconditional and vectored
through 0xFFFA. -/
def Machine.nmi (m : Machine) : Machine :=
  let m1 := m.push_byte ((m.pc >>> 8) % 256)
  let m2 := m1.push_byte (m.pc &&& 0xFF)
  let m3 := m2.push_byte (statusToByte { m.status with break_ := false })
  { m3 with pc := m3.read_word 0xFFFA }

/-- `CPU::check_nz` (`src/cpu.rs`): Negative := bit 7 of the value,
Zero := value = 0. -/
def checkNZ (st : Status) (data : Nat) : Status :=
  { st with negative := decide (0 < data &&& 0b10000000), zero := decide (data = 0) }

/-- Apply `check_nz` to a machine for a just-computed value. -/
def Machine.setNZ (m : Machine) (data : Nat) : Machine :=
  { m with status := checkNZ m.status data }

/-- Value of a byte reinterpreted as a signed `i8` (for relative branches). -/
def i8val (b : Nat) : Int :=
  if b < 128 then (b : Int) else (b : Int) - 256

/-- `(self.pc as i32 + offset as i32) as u16` (`src/cpu.rs`): branch-target
arithmetic in `i32`, truncated back to `u16`. -/
def branchTarget (pc : Nat) (off : Int) : Nat :=
  (((pc : Int) + off).emod 65536).toNat

/-- `CPU::read_byte_relative` (`src/cpu.rs`). -/
def Machine.read_byte_relative (m : Machine) : Machine × Int :=
  let (m1, b) := m.next_byte
  (m1, i8val b)

/-- `CPU::read_byte_addressed` (`src/cpu.rs`): resolve an addressing mode to
(effective address, byte at it), consuming operand bytes.  The `Implied`,
`Indirect` and `Relative` arms are `unimplemented!` panics in the source,
embedded as `none`.  In the `IndirectY` arm the effective address is
`read_word(zp) + Y` with the source's plain (non-wrapping) `u16` addition,
embedded as plain `Nat` addition. -/
def Machine.read_byte_addressed (m : Machine) :
    AddressingMode → Option (Machine × Nat × Nat)
  | .Implied => none
  | .Immediate =>
      let (m1, data) := m.next_byte
      some (m1, m1.pc, data)
  | .Absolute =>
      let (m1, addr) := m.next_word
      some (m1, addr, m1.read_byte addr)
  | .AbsoluteX =>
      let (m1, abs_addr) := m.next_word
      let addr := (abs_addr + m1.x) % 65536
      some (m1, addr, m1.read_byte addr)
  | .AbsoluteY =>
      let (m1, abs_addr) := m.next_word
      let addr := (abs_addr + m1.y) % 65536
      some (m1, addr, m1.read_byte addr)
  | .Indirect => none
  | .XIndirect =>
      let (m1, zp_addr) := m.next_byte
      let indexed := (zp_addr + m1.x) % 256
      let addr := m1.read_word indexed
      some (m1, addr, m1.read_byte addr)
  | .IndirectY =>
      let (m1, zp_addr) := m.next_byte
      let addr := m1.read_word zp_addr + m1.y
      some (m1, addr, m1.read_byte addr)
  | .Relative => none
  | .ZeroPage =>
      let (m1, addr) := m.next_byte
      some (m1, addr, m1.read_byte addr)
  | .ZeroPageX =>
      let (m1, zp_addr) := m.next_byte
      let addr := (zp_addr + m1.x) % 256
      some (m1, addr, m1.read_byte addr)
  | .ZeroPageY =>
      let (m1, zp_addr) := m.next_byte
      let addr := (zp_addr + m1.y) % 256
      some (m1, addr, m1.read_byte addr)

/-- `CPU::write_byte_addressed` (`src/cpu.rs`): store a byte through an
addressing mode.  Panicking arms are embedded as `none`. -/
def Machine.write_byte_addressed (m : Machine) (data : Nat) :
    AddressingMode → Option Machine
  | .Implied => none
  | .Immediate => none
  | .Absolute =>
      let (m1, addr) := m.next_word
      some (m1.write_byte addr data)
  | .AbsoluteX =>
      let (m1, abs_addr) := m.next_word
      let addr := (abs_addr + m1.x) % 65536
      some (m1.write_byte addr data)
  | .AbsoluteY =>
      let (m1, abs_addr) := m.next_word
      let addr := (abs_addr + m1.y) % 65536
      some (m1.write_byte addr data)
  | .Indirect => none
  | .XIndirect =>
      let (m1, zp_addr) := m.next_byte
      let addr := m1.read_word ((zp_addr + m1.x) % 256)
      some (m1.write_byte addr data)
  | .IndirectY =>
      let (m1, zp_addr) := m.next_byte
      let addr := m1.read_word zp_addr + m1.y
      some (m1.write_byte addr data)
  | .Relative => none
  | .ZeroPage =>
      let (m1, zp_addr) := m.next_byte
      some (m1.write_byte zp_addr data)
  | .ZeroPageX =>
      let (m1, zp_addr) := m.next_byte
      let addr := (zp_addr + m1.x) % 256
      some (m1.write_byte addr data)
  | .ZeroPageY =>
      let (m1, zp_addr) := m.next_byte
      let addr := (zp_addr + m1.y) % 256
      some (m1.write_byte addr data)

/-- The arithmetic of the `Inst::ADC` arm of `CPU::step` (`src/cpu.rs`):
the 16-bit sum of accumulator, operand and carry-in, returning the truncated
result and the new (carry, overflow) pair. -/
def adcCore (a operand carryIn : Nat) : Nat × Bool × Bool :=
  let result := (a + operand + carryIn) % 65536
  (result % 256,
   decide (0xFF < result),
   decide (0 < (result ^^^ a) &&& (result ^^^ operand) &&& 0x80))

/-- The arithmetic of the `Inst::SBC` arm of `CPU::step` (`src/cpu.rs`):
the operand's bits are complemented, then the same sum/carry/overflow
derivation as ADC is performed on it. -/
def sbcCore (a data carryIn : Nat) : Nat × Bool × Bool :=
  let operand := data ^^^ 0xFF
  let result := (a + operand + carryIn) % 65536
  (result % 256,
   decide (0xFF < result),
   decide (0 < (result ^^^ a) &&& (result ^^^ operand) &&& 0x80))

/-- The `ExecutionError` enum of `src/cpu.rs`. -/
inductive ExecutionError where
  | UnknownInst (byte : Nat)
deriving DecidableEq, Repr

/-- `CPU::step` (`src/cpu.rs`): fetch, decode, execute one instruction.
The outer `Option` models the `unimplemented!` panic paths (never taken for
decoded instructions); `Except` carries the decode error.  Carry-in for
ADC/SBC and rotate carry bits use `cond flag 1 0` for the source's
`flag as u8`/`as u16` casts. -/
def Machine.step (m : Machine) : Option (Except ExecutionError Machine) :=
  let (m0, inst_byte) := m.next_byte
  match decode_inst inst_byte with
  | none => some (.error (.UnknownInst inst_byte))
  | some (inst, addr_mode) =>
    match inst with
    | .LDA => do
        let (m1, _, data) ← m0.read_byte_addressed addr_mode
        let m2 := { m1 with a := data }
        pure (.ok (m2.setNZ m2.a))
    | .LDX => do
        let (m1, _, data) ← m0.read_byte_addressed addr_mode
        let m2 := { m1 with x := data }
        pure (.ok (m2.setNZ m2.x))
    | .LDY => do
        let (m1, _, data) ← m0.read_byte_addressed addr_mode
        let m2 := { m1 with y := data }
        pure (.ok (m2.setNZ m2.y))
    | .STA => do
        let m1 ← m0.write_byte_addressed m0.a addr_mode
        pure (.ok m1)
    | .STX => do
        let m1 ← m0.write_byte_addressed m0.x addr_mode
        pure (.ok m1)
    | .STY => do
        let m1 ← m0.write_byte_addressed m0.y addr_mode
        pure (.ok m1)
    | .TAX =>
        let m1 := { m0 with x := m0.a }
        some (.ok (m1.setNZ m1.x))
    | .TAY =>
        let m1 := { m0 with y := m0.a }
        some (.ok (m1.setNZ m1.y))
    | .TSX =>
        let m1 := { m0 with x := m0.sp }
        some (.ok (m1.setNZ m1.x))
    | .TXA =>
        let m1 := { m0 with a := m0.x }
        some (.ok (m1.setNZ m1.a))
    | .TXS =>
        some (.ok { m0 with sp := m0.x })
    | .TYA =>
        let m1 := { m0 with a := m0.y }
        some (.ok (m1.setNZ m1.a))
    | .PHA => some (.ok (m0.push_byte m0.a))
    | .PHP =>
        some (.ok (m0.push_byte (statusToByte { m0.status with break_ := true })))
    | .PHX => some (.ok (m0.push_byte m0.x))
    | .PHY => some (.ok (m0.push_byte m0.y))
    | .PLA =>
        let (m1, v) := m0.pull_byte
        let m2 := { m1 with a := v }
        some (.ok (m2.setNZ m2.a))
    | .PLP =>
        let (m1, v) := m0.pull_byte
        some (.ok { m1 with status := statusFromByte v })
    | .PLX =>
        let (m1, v) := m0.pull_byte
        let m2 := { m1 with x := v }
        some (.ok (m2.setNZ m2.x))
    | .PLY =>
        let (m1, v) := m0.pull_byte
        let m2 := { m1 with y := v }
        some (.ok (m2.setNZ m2.y))
    | .DEC =>
        if addr_mode = .Implied then
          let m1 := { m0 with a := (m0.a + 255) % 256 }
          some (.ok (m1.setNZ m1.a))
        else do
          let (m1, addr, data) ← m0.read_byte_addressed addr_mode
          let data1 := (data + 255) % 256
          let m2 := m1.write_byte addr data1
          pure (.ok (m2.setNZ data1))
    | .DEX =>
        let m1 := { m0 with x := (m0.x + 255) % 256 }
        some (.ok (m1.setNZ m1.x))
    | .DEY =>
        let m1 := { m0 with y := (m0.y + 255) % 256 }
        some (.ok (m1.setNZ m1.y))
    | .INC =>
        if addr_mode = .Implied then
          let m1 := { m0 with a := (m0.a + 1) % 256 }
          some (.ok (m1.setNZ m1.a))
        else do
          let (m1, addr, data) ← m0.read_byte_addressed addr_mode
          let data1 := (data + 1) % 256
          let m2 := m1.write_byte addr data1
          pure (.ok (m2.setNZ data1))
    | .INX =>
        let m1 := { m0 with x := (m0.x + 1) % 256 }
        some (.ok (m1.setNZ m1.x))
    | .INY =>
        let m1 := { m0 with y := (m0.y + 1) % 256 }
        some (.ok (m1.setNZ m1.y))
    | .ADC => do
        let (m1, _, data) ← m0.read_byte_addressed addr_mode
        let (res, c, v) := adcCore m1.a data (cond m1.status.carry 1 0)
        let m2 := { m1 with a := res,
                            status := { m1.status with carry := c, overflow := v } }
        pure (.ok (m2.setNZ m2.a))
    | .SBC => do
        let (m1, _, data) ← m0.read_byte_addressed addr_mode
        let (res, c, v) := sbcCore m1.a data (cond m1.status.carry 1 0)
        let m2 := { m1 with a := res,
                            status := { m1.status with carry := c, overflow := v } }
        pure (.ok (m2.setNZ m2.a))
    | .AND => do
        let (m1, _, data) ← m0.read_byte_addressed addr_mode
        let m2 := { m1 with a := m1.a &&& data }
        pure (.ok (m2.setNZ m2.a))
    | .EOR => do
        let (m1, _, data) ← m0.read_byte_addressed addr_mode
        let m2 := { m1 with a := m1.a ^^^ data }
        pure (.ok (m2.setNZ m2.a))
    | .ORA => do
        let (m1, _, data) ← m0.read_byte_addressed addr_mode
        let m2 := { m1 with a := m1.a ||| data }
        pure (.ok (m2.setNZ m2.a))
    | .ASL =>
        if addr_mode = .Implied then
          let data := m0.a
          let send_carry := decide (0 < data &&& 0b10000000)
          let data1 := (data <<< 1) % 256
          let m1 := { m0 with a := data1 }
          let m2 := m1.setNZ data1
          some (.ok { m2 with status := { m2.status with carry := send_carry } })
        else do
          let (m1, addr, data) ← m0.read_byte_addressed addr_mode
          let send_carry := decide (0 < data &&& 0b10000000)
          let data1 := (data <<< 1) % 256
          let m2 := m1.write_byte addr data1
          let m3 := m2.setNZ data1
          pure (.ok { m3 with status := { m3.status with carry := send_carry } })
    | .LSR =>
        if addr_mode = .Implied then
          let data := m0.a
          let send_carry := decide (0 < data &&& 0b1)
          let data1 := data >>> 1
          let m1 := { m0 with a := data1 }
          let m2 := m1.setNZ data1
          some (.ok { m2 with status := { m2.status with carry := send_carry } })
        else do
          let (m1, addr, data) ← m0.read_byte_addressed addr_mode
          let send_carry := decide (0 < data &&& 0b1)
          let data1 := data >>> 1
          let m2 := m1.write_byte addr data1
          let m3 := m2.setNZ data1
          pure (.ok { m3 with status := { m3.status with carry := send_carry } })
    | .ROL =>
        if addr_mode = .Implied then
          let data := m0.a
          let send_carry := decide (0 < data &&& 0b10000000)
          let data1 := ((data <<< 1) % 256) ||| (cond m0.status.carry 1 0)
          let m1 := { m0 with a := data1 }
          let m2 := m1.setNZ data1
          some (.ok { m2 with status := { m2.status with carry := send_carry } })
        else do
          let (m1, addr, data) ← m0.read_byte_addressed addr_mode
          let send_carry := decide (0 < data &&& 0b10000000)
          let data1 := ((data <<< 1) % 256) ||| (cond m1.status.carry 1 0)
          let m2 := m1.write_byte addr data1
          let m3 := m2.setNZ data1
          pure (.ok { m3 with status := { m3.status with carry := send_carry } })
    | .ROR =>
        if addr_mode = .Implied then
          let data := m0.a
          let send_carry := decide (0 < data &&& 0b1)
          let data1 := (data >>> 1) ||| ((cond m0.status.carry 1 0) <<< 7)
          let m1 := { m0 with a := data1 }
          let m2 := m1.setNZ data1
          some (.ok { m2 with status := { m2.status with carry := send_carry } })
        else do
          let (m1, addr, data) ← m0.read_byte_addressed addr_mode
          let send_carry := decide (0 < data &&& 0b1)
          let data1 := (data >>> 1) ||| ((cond m1.status.carry 1 0) <<< 7)
          let m2 := m1.write_byte addr data1
          let m3 := m2.setNZ data1
          pure (.ok { m3 with status := { m3.status with carry := send_carry } })
    | .CLC => some (.ok { m0 with status := { m0.status with carry := false } })
    | .CLD => some (.ok { m0 with status := { m0.status with decimal := false } })
    | .CLI => some (.ok { m0 with status := { m0.status with int_disable := false } })
    | .CLV => some (.ok { m0 with status := { m0.status with overflow := false } })
    | .SEC => some (.ok { m0 with status := { m0.status with carry := true } })
    | .SED => some (.ok { m0 with status := { m0.status with decimal := true } })
    | .SEI => some (.ok { m0 with status := { m0.status with int_disable := true } })
    | .CMP => do
        let (m1, _, operand) ← m0.read_byte_addressed addr_mode
        let result := (m1.a + 256 - operand % 256) % 256
        let m2 := m1.setNZ result
        pure (.ok { m2 with status := { m2.status with carry := decide (operand ≤ m2.a) } })
    | .CPX => do
        let (m1, _, operand) ← m0.read_byte_addressed addr_mode
        let result := (m1.x + 256 - operand % 256) % 256
        let m2 := m1.setNZ result
        pure (.ok { m2 with status := { m2.status with carry := decide (operand ≤ m2.x) } })
    | .CPY => do
        let (m1, _, operand) ← m0.read_byte_addressed addr_mode
        let result := (m1.y + 256 - operand % 256) % 256
        let m2 := m1.setNZ result
        pure (.ok { m2 with status := { m2.status with carry := decide (operand ≤ m2.y) } })
    | .BRA =>
        let (m1, off) := m0.read_byte_relative
        some (.ok { m1 with pc := branchTarget m1.pc off })
    | .BCC =>
        let (m1, off) := m0.read_byte_relative
        some (.ok (if m1.status.carry then m1 else { m1 with pc := branchTarget m1.pc off }))
    | .BCS =>
        let (m1, off) := m0.read_byte_relative
        some (.ok (if m1.status.carry then { m1 with pc := branchTarget m1.pc off } else m1))
    | .BNE =>
        let (m1, off) := m0.read_byte_relative
        some (.ok (if m1.status.zero then m1 else { m1 with pc := branchTarget m1.pc off }))
    | .BEQ =>
        let (m1, off) := m0.read_byte_relative
        some (.ok (if m1.status.zero then { m1 with pc := branchTarget m1.pc off } else m1))
    | .BPL =>
        let (m1, off) := m0.read_byte_relative
        some (.ok (if m1.status.negative then m1 else { m1 with pc := branchTarget m1.pc off }))
    | .BMI =>
        let (m1, off) := m0.read_byte_relative
        some (.ok (if m1.status.negative then { m1 with pc := branchTarget m1.pc off } else m1))
    | .BVC =>
        let (m1, off) := m0.read_byte_relative
        some (.ok (if m1.status.overflow then m1 else { m1 with pc := branchTarget m1.pc off }))
    | .BVS =>
        let (m1, off) := m0.read_byte_relative
        some (.ok (if m1.status.overflow then { m1 with pc := branchTarget m1.pc off } else m1))
    | .JMP =>
        match addr_mode with
        | .Indirect =>
            let (m1, indirect_addr) := m0.next_word
            some (.ok { m1 with pc := m1.read_word indirect_addr })
        | .Absolute =>
            let (m1, addr) := m0.next_word
            some (.ok { m1 with pc := addr })
        | _ => none
    | .JSR =>
        let (m1, to_addr) := m0.next_word
        let ret_addr := (m1.pc + 65535) % 65536
        let m2 := m1.push_byte ((ret_addr >>> 8) % 256)
        let m3 := m2.push_byte (ret_addr &&& 0xFF)
        some (.ok { m3 with pc := to_addr })
    | .RTS =>
        let (m1, lo_pc) := m0.pull_byte
        let (m2, hi_pc) := m1.pull_byte
        let pc1 := (hi_pc <<< 8) ||| lo_pc
        some (.ok { m2 with pc := (pc1 + 1) % 65536 })
    | .BRK =>
        let pc_next := m0.pc + 1
        let m1 := m0.push_byte ((pc_next >>> 8) % 256)
        let m2 := m1.push_byte (pc_next &&& 0xFF)
        let m3 := m2.push_byte (statusToByte { m2.status with break_ := true })
        let m4 := { m3 with status := { m3.status with int_disable := true } }
        some (.ok { m4 with pc := m4.read_word 0xFFFE })
    | .RTI =>
        let (m1, st) := m0.pull_byte
        let m2 := { m1 with status := statusFromByte st }
        let (m3, lo_pc) := m2.pull_byte
        let (m4, hi_pc) := m3.pull_byte
        some (.ok { m4 with pc := (hi_pc <<< 8) ||| lo_pc })
    | .BIT => do
        let (m1, _, data) ← m0.read_byte_addressed addr_mode
        pure (.ok { m1 with status :=
          { m1.status with
            zero := decide (m1.a &&& data = 0)
            negative := decide (0 < data &&& 0b10000000)
            overflow := decide (0 < data &&& 0b1000000) } })
    | .NOP => some (.ok m0)

/-- Run one `step`, expecting success (used to chain concrete executions;
success itself is always asserted separately). -/
def Machine.stepOk (m : Machine) : Machine :=
  match m.step with
  | some (.ok m1) => m1
  | _ => m

/-! ## Address-space layout (`src/layout.rs`)

A registered memory (`Box<dyn Memory>`) enters `LayoutBuilder::build` only
through its `get_byte_count()`, so the `mems` vector is modelled as the list
of those byte counts (a `MemId` is an index into it).  The paint vector
`space` of length `max_byte_cnt` is modelled as a function `Nat → Nat` whose
values at indices `≥ max_byte_cnt` are never consulted; the unassigned
sentinel `MemId(usize::MAX)` is the value `usizeMAX`. -/

/-- `usize::MAX`, the sentinel mem-id for an unpainted slot. -/
def usizeMAX : Nat := 2 ^ 64 - 1

/-- The `MappingRequest` struct of `src/layout.rs`. -/
structure MappingRequest where
  addr_start : Nat
  byte_cnt : Nat
  mem_id : Nat
deriving DecidableEq, Repr

/-- The `LayoutBuilder` struct of `src/layout.rs` (each registered memory
represented by its byte count). -/
structure LayoutBuilder where
  max_byte_cnt : Nat
  mems : List Nat
  mappings : List MappingRequest
deriving DecidableEq, Repr

/-- The `BuildError` enum of `src/layout.rs`; a `Range<usize>` is carried as
its (start, end) pair, end exclusive. -/
inductive BuildError where
  | UnassignedRange (lo hi : Nat)
  | VirtualAddressOutOfRange (lo hi : Nat)
  | MemoryOutOfRange (id : Nat)
  | InvalidMemoryId (id : Nat)
deriving DecidableEq, Repr

/-- The `Mapping` struct of `src/layout.rs`. -/
structure Mapping where
  virtual_addr_start : Nat
  physical_addr_start : Nat
  mem_id : Nat
deriving DecidableEq, Repr

/-- The `Layout` struct of `src/layout.rs` (the `BTreeMap` of mappings as an
association list in ascending key order, which is the order `build` inserts
in). -/
structure Layout where
  byte_cnt : Nat
  mems : List Nat
  mappings : List (Nat × Mapping)
deriving DecidableEq, Repr

/-- `Layout::get_byte_count` (`src/layout.rs`). -/
def Layout.get_byte_count (l : Layout) : Nat := l.byte_cnt

/-- `LayoutBuilder::new` (`src/layout.rs`). -/
def LayoutBuilder.new (max_byte_cnt : Nat) : LayoutBuilder :=
  { max_byte_cnt := max_byte_cnt, mems := [], mappings := [] }

/-- `LayoutBuilder::add_memory` (`src/layout.rs`): returns the new builder and
the `MemId` handed out. -/
def LayoutBuilder.add_memory (b : LayoutBuilder) (byte_count : Nat) :
    LayoutBuilder × Nat :=
  ({ b with mems := b.mems ++ [byte_count] }, b.mems.length)

/-- `LayoutBuilder::assign_range` (`src/layout.rs`): a zero-length request is
dropped, any other is recorded. -/
def LayoutBuilder.assign_range (b : LayoutBuilder)
    (addr_start byte_cnt mem_id : Nat) : LayoutBuilder :=
  if byte_cnt = 0 then b
  else { b with mappings := b.mappings ++ [⟨addr_start, byte_cnt, mem_id⟩] }

/-- One painting pass of the `build` loop: every slot of
`[addr_start, addr_start + byte_cnt)` is overwritten with `mem_id`. -/
def paintOne (space : Nat → Nat) (r : MappingRequest) : Nat → Nat :=
  fun a => if r.addr_start ≤ a ∧ a < r.addr_start + r.byte_cnt then r.mem_id else space a

/-- The first (painting) loop of `LayoutBuilder::build` (`src/layout.rs`):
validate each request (address range inside the space, valid mem id, request
not larger than the memory) and paint its slots, requests processed in
registration order. -/
def paintAll (max_byte_cnt : Nat) (mems : List Nat) :
    List MappingRequest → (Nat → Nat) → Except BuildError (Nat → Nat)
  | [], space => .ok space
  | r :: rs, space =>
    if max_byte_cnt < r.addr_start + r.byte_cnt then
      .error (.VirtualAddressOutOfRange r.addr_start (r.addr_start + r.byte_cnt))
    else
      match mems.get? r.mem_id with
      | none => .error (.InvalidMemoryId r.mem_id)
      | some memCnt =>
        if memCnt < r.byte_cnt then .error (.MemoryOutOfRange r.mem_id)
        else paintAll max_byte_cnt mems rs (paintOne space r)

/-- The scan of the second loop of `build`: the first index `i < max` with an
unpainted slot (`fuel` is the number of remaining iterations, called with
`fuel = max - i`). -/
def findGapFrom (space : Nat → Nat) (max : Nat) : Nat → Nat → Option Nat
  | 0, _ => none
  | fuel + 1, i =>
    if i < max then
      if space i = usizeMAX then some i else findGapFrom space max fuel (i + 1)
    else none

/-- `space.iter().skip(i).take_while(|v| v.0 == usize::MAX).count()`: the
length of the unpainted run starting at index `i` (within bounds). -/
def gapRunFrom (space : Nat → Nat) (max : Nat) : Nat → Nat → Nat
  | 0, _ => 0
  | fuel + 1, i =>
    if i < max then
      if space i = usizeMAX then gapRunFrom space max fuel (i + 1) + 1 else 0
    else 0

/-- State of the coalescing loop of `build`: current run start, current run
owner, the per-memory physical-base accumulator (`phys_mapping`, an entry
defaulting to 0), and the mappings inserted so far. -/
structure CoState where
  start : Nat
  mem_id : Nat
  phys : Nat → Nat
  maps : List (Nat × Mapping)

/-- The coalescing loop of `build` (`src/layout.rs`): walk the painted space
in ascending address order; each time the owner changes, close the previous
run (checking it against the owning memory's capacity), advance that memory's
physical base by the run length, and open a new run. -/
def coalesceLoop (mems : List Nat) (space : Nat → Nat) (max : Nat) :
    Nat → Nat → CoState → Except BuildError CoState
  | 0, _, st => .ok st
  | fuel + 1, i, st =>
    if i < max then
      if space i ≠ st.mem_id then
        let memCnt := (mems.get? st.mem_id).getD 0
        let base := st.phys st.mem_id
        let offset_cnt := i - st.start
        if memCnt < base + offset_cnt then .error (.MemoryOutOfRange st.mem_id)
        else
          coalesceLoop mems space max fuel (i + 1)
            { start := i
              mem_id := space i
              phys := fun j => if j = st.mem_id then base + offset_cnt else st.phys j
              maps := st.maps ++ [(st.start, ⟨st.start, base, st.mem_id⟩)] }
      else coalesceLoop mems space max fuel (i + 1) st
    else .ok st

/-- `LayoutBuilder::build` (`src/layout.rs`): paint the space, report the
first unassigned slot as `UnassignedRange(i..(i + run-after-i))`, then
coalesce the painted runs and close the final run. -/
def LayoutBuilder.build (b : LayoutBuilder) : Except BuildError Layout := do
  let space ← paintAll b.max_byte_cnt b.mems b.mappings (fun _ => usizeMAX)
  match findGapFrom space b.max_byte_cnt b.max_byte_cnt 0 with
  | some i =>
      .error (.UnassignedRange i (i + gapRunFrom space b.max_byte_cnt b.max_byte_cnt (i + 1)))
  | none =>
    let st0 : CoState := { start := 0, mem_id := space 0, phys := fun _ => 0, maps := [] }
    let st ← coalesceLoop b.mems space b.max_byte_cnt b.max_byte_cnt 0 st0
    let memCnt := (b.mems.get? st.mem_id).getD 0
    let base := st.phys st.mem_id
    let offset_cnt := b.max_byte_cnt - st.start
    if memCnt < base + offset_cnt then .error (.MemoryOutOfRange st.mem_id)
    else
      .ok { byte_cnt := b.max_byte_cnt
            mems := b.mems
            mappings := st.maps ++ [(st.start, ⟨st.start, base, st.mem_id⟩)] }

/-! ## Engine construction (`src/cpu.rs`) -/

/-- The freshly constructed `CPU` struct: registers and flags zeroed, holding
its layout (`debug_*` fields not modelled). -/
structure CPUInit where
  pc : Nat
  sp : Nat
  a : Nat
  x : Nat
  y : Nat
  status : Status
  layout : Layout
deriving DecidableEq, Repr

/-- `CPU::new` (`src/cpu.rs`): reject a layout whose byte count is below
`u16::MAX as usize` (the literal 65535), otherwise construct the engine.
(The `layout.attach()` lifecycle call has no effect on this state.) -/
def CPU_new (layout : Layout) : Option CPUInit :=
  if layout.get_byte_count < 65535 then none
  else some { pc := 0, sp := 0, a := 0, x := 0, y := 0,
              status := Status.default, layout := layout }

/-! ## Auxiliary notions for the claims -/

/-- Two's-complement (signed) reading of a byte. -/
def toSigned8 (z : Nat) : Int := if z < 128 then (z : Int) else (z : Int) - 256

/-- The reference-hardware behaviour of binary-mode SBC, following the spec's
description: the two's-complement subtraction `A - operand - (1 - carry)`,
with Carry set when no borrow occurs and Overflow set when the signed
difference leaves the signed byte range.  (Negative and Zero are derived from
the returned result, as for every arithmetic instruction.)  Used as the
reference side of the refinement comparison; the source-derived side is
`sbcCore`. -/
def sbc_reference (a d c : Nat) : Nat × Bool × Bool :=
  ((a + 512 - d - (1 - c)) % 256,
   decide (d + (1 - c) ≤ a),
   decide (toSigned8 a - toSigned8 d - ((1 : Int) - c) < -128 ∨
           127 < toSigned8 a - toSigned8 d - ((1 : Int) - c)))

/-- `256` consecutive stack pushes, the bytes pushed given as a list. -/
def pushList (m : Machine) (ds : List Nat) : Machine :=
  ds.foldl Machine.push_byte m

/-! ## Concrete fixtures used by the claims -/

/-- The spec's gap scenario: a 0x10000-byte space with only 0x0000–0x7FFF
assigned (to one 0x8000-byte memory). -/
def layoutGapBuilder : LayoutBuilder :=
  { max_byte_cnt := 0x10000, mems := [0x8000], mappings := [⟨0x0000, 0x8000, 0⟩] }

/-- The painted space of `layoutGapBuilder`. -/
def spaceGap : Nat → Nat := paintOne (fun _ => usizeMAX) ⟨0x0000, 0x8000, 0⟩

/-- A builder with two overlapping assignments of the single address 0. -/
def overlapBuilder : LayoutBuilder :=
  { max_byte_cnt := 1, mems := [1, 1], mappings := [⟨0, 1, 0⟩, ⟨0, 1, 1⟩] }

/-- The painted space of `overlapBuilder`. -/
def spaceOverlap : Nat → Nat :=
  paintOne (paintOne (fun _ => usizeMAX) ⟨0, 1, 0⟩) ⟨0, 1, 1⟩

/-- A fully assigned builder over a 65535-byte space (addresses
0x0000–0xFFFE; address 0xFFFF has no storage). -/
def fullBuilder : LayoutBuilder :=
  { max_byte_cnt := 65535, mems := [65535], mappings := [⟨0, 65535, 0⟩] }

/-- The painted space of `fullBuilder`. -/
def spaceFull : Nat → Nat := paintOne (fun _ => usizeMAX) ⟨0, 65535, 0⟩

/-- The coalescing state `fullBuilder`'s build starts (and, the space being
constant, ends) with. -/
def stFull : CoState :=
  { start := 0, mem_id := spaceFull 0, phys := fun _ => 0, maps := [] }

/-- The layout `fullBuilder.build` produces: 65535 bytes, one run. -/
def layout65535 : Layout :=
  { byte_cnt := 65535, mems := [65535], mappings := [(0, ⟨0, 0, 0⟩)] }

/-- Machine about to execute `JSR 0x2000` at 0x1000, with RTS at 0x2000. -/
def mJSR : Machine :=
  { pc := 0x1000, sp := 0xFF, a := 0, x := 0, y := 0, status := Status.default,
    mem := fun a => if a = 0x1000 then 0x20 else if a = 0x1001 then 0x00
      else if a = 0x1002 then 0x20 else if a = 0x2000 then 0x60 else 0 }

/-- Machine about to execute `ADC #$50` with A = 0x50 and carry clear. -/
def mAdc50 : Machine :=
  { pc := 0, sp := 0xFF, a := 0x50, x := 0, y := 0, status := Status.default,
    mem := fun a => if a = 0 then 0x69 else if a = 1 then 0x50 else 0 }

/-- Machine about to execute `SBC #$30` with A = 0x50 and carry set. -/
def mSbc50 : Machine :=
  { pc := 0, sp := 0xFF, a := 0x50, x := 0, y := 0,
    status := { Status.default with carry := true },
    mem := fun a => if a = 0 then 0xE9 else if a = 1 then 0x30 else 0 }

/-- Machine about to execute `ADC #$CF` (0xCF = 0x30 XOR 0xFF) with A = 0x50
and carry set: the ADC image of `mSbc50` under operand complementation. -/
def mAdcC : Machine :=
  { pc := 0, sp := 0xFF, a := 0x50, x := 0, y := 0,
    status := { Status.default with carry := true },
    mem := fun a => if a = 0 then 0x69 else if a = 1 then 0xCF else 0 }

/-- Machine about to execute `LDA (0x10),Y` with the zero-page pointer at
0x10 holding the word 0xFFFF and Y = 1: the IndirectY effective address is
0xFFFF + 1.  The model's memory carries distinct bytes at 0 and at 65536 to
make the accessed address observable. -/
def mIY : Machine :=
  { pc := 0x0300, sp := 0xFF, a := 0, x := 0, y := 1, status := Status.default,
    mem := fun a => if a = 0x0300 then 0xB1 else if a = 0x0301 then 0x10
      else if a = 0x10 then 0xFF else if a = 0x11 then 0xFF
      else if a = 65536 then 0xAB else 0 }

/-- `mIY` after the opcode fetch (its `PC` on the zero-page operand). -/
def mIYop : Machine :=
  { pc := 0x0301, sp := 0xFF, a := 0, x := 0, y := 1, status := Status.default,
    mem := fun a => if a = 0x0300 then 0xB1 else if a = 0x0301 then 0x10
      else if a = 0x10 then 0xFF else if a = 0x11 then 0xFF
      else if a = 65536 then 0xAB else 0 }

/-- Machine whose in-space memory (addresses < 65536) is all zero, with a
distinct byte at 65536. -/
def mRW : Machine :=
  { pc := 0, sp := 0xFF, a := 0, x := 0, y := 0, status := Status.default,
    mem := fun a => if a < 65536 then 0 else 0x07 }


section Helpers

lemma and128_pos_iff (z : Nat) : 0 < z &&& 0x80 ↔ z.testBit 7 = true := by
  have h := Nat.and_two_pow z 7
  rw [show (0x80 : Nat) = 2 ^ 7 from rfl, h]
  cases z.testBit 7 <;> simp

lemma testBit7_div (z : Nat) : z.testBit 7 = decide (z / 128 % 2 = 1) := by
  simpa using (Nat.testBit_to_div_mod (i := 7) (x := z))

lemma overflow_bit_iff (a o c : Nat) (ha : a < 256) (ho : o < 256) (hc : c ≤ 1) :
    (0 < ((a + o + c) % 65536 ^^^ a) &&& ((a + o + c) % 65536 ^^^ o) &&& 0x80)
      ↔ (toSigned8 a + toSigned8 o + (c : Int) < -128 ∨
          127 < toSigned8 a + toSigned8 o + (c : Int)) := by
  have hm : (a + o + c) % 65536 = a + o + c := Nat.mod_eq_of_lt (by omega)
  rw [hm, and128_pos_iff, Nat.testBit_land, Nat.testBit_xor, Nat.testBit_xor,
    testBit7_div, testBit7_div, testBit7_div]
  by_cases hP : (a + o + c) / 128 % 2 = 1 <;> by_cases hQ : a / 128 % 2 = 1 <;>
    by_cases hR : o / 128 % 2 = 1 <;>
    simp [hP, hQ, hR, toSigned8] <;> split_ifs <;> omega

set_option maxRecDepth 2000 in
lemma xor_255 : ∀ d : Nat, d < 256 → d ^^^ 255 = 255 - d := by decide

lemma toSigned8_compl (d : Nat) (hd : d < 256) :
    toSigned8 (255 - d) = -toSigned8 d - 1 := by
  simp only [toSigned8]; split_ifs <;> omega

lemma pushList_sp (ds : List Nat) :
    ∀ m : Machine, m.sp < 256 →
      (pushList m ds).sp = (m.sp + 255 * ds.length) % 256 := by
  induction ds with
  | nil => intro m hm; simp [pushList]; omega
  | cons d ds ih =>
    intro m hm
    have h1 : pushList m (d :: ds) = pushList (m.push_byte d) ds := by
      simp [pushList]
    have h2 : (m.push_byte d).sp = (m.sp + 255) % 256 := rfl
    rw [h1, ih (m.push_byte d) (by rw [h2]; omega), h2]
    simp only [List.length_cons]
    omega

lemma pushList_mem_outside (ds : List Nat) :
    ∀ m : Machine, m.sp < 256 → ∀ addr, (addr < 0x100 ∨ 0x1FF < addr) →
      (pushList m ds).mem addr = m.mem addr := by
  induction ds with
  | nil => intro m _ addr _; rfl
  | cons d ds ih =>
    intro m hm addr haddr
    have h1 : pushList m (d :: ds) = pushList (m.push_byte d) ds := by
      simp [pushList]
    rw [h1, ih (m.push_byte d) (by show (m.sp + 255) % 256 < 256; omega) addr haddr]
    show writeMem m.mem (m.sp + 0x100) d addr = m.mem addr
    rw [writeMem, if_neg (by omega)]

lemma findGapFrom_some (space : Nat → Nat) (max k : Nat) :
    ∀ fuel i, i ≤ k → k < max → k - i < fuel →
      (∀ j, i ≤ j → j < k → space j ≠ usizeMAX) → space k = usizeMAX →
      findGapFrom space max fuel i = some k := by
  intro fuel
  induction fuel with
  | zero => omega
  | succ n ih =>
    intro i hik hk hf hne hsent
    rw [findGapFrom]
    rcases Nat.eq_or_lt_of_le hik with rfl | hlt
    · simp [hk, hsent]
    · have hi : i < max := by omega
      simp only [if_pos hi]
      rw [if_neg (hne i (Nat.le_refl _) hlt)]
      exact ih (i + 1) (by omega) hk (by omega) (fun j h1 h2 => hne j (by omega) h2) hsent

lemma findGapFrom_none (space : Nat → Nat) (max : Nat) :
    ∀ fuel i, (∀ j, i ≤ j → j < max → space j ≠ usizeMAX) →
      findGapFrom space max fuel i = none := by
  intro fuel
  induction fuel with
  | zero => intro i _; rfl
  | succ n ih =>
    intro i hne
    rw [findGapFrom]
    by_cases hi : i < max
    · simp only [if_pos hi]
      rw [if_neg (hne i (Nat.le_refl _) hi)]
      exact ih (i + 1) (fun j h1 h2 => hne j (by omega) h2)
    · simp [hi]

lemma gapRunFrom_all (space : Nat → Nat) (max : Nat) :
    ∀ fuel i, max ≤ i + fuel → (∀ j, i ≤ j → j < max → space j = usizeMAX) →
      gapRunFrom space max fuel i = max - i := by
  intro fuel
  induction fuel with
  | zero => intro i h _; rw [gapRunFrom]; omega
  | succ n ih =>
    intro i hf hall
    rw [gapRunFrom]
    by_cases hi : i < max
    · simp only [if_pos hi]
      rw [if_pos (hall i (Nat.le_refl _) hi)]
      rw [ih (i + 1) (by omega) (fun j h1 h2 => hall j (by omega) h2)]
      omega
    · simp only [if_neg hi]
      omega

lemma coalesceLoop_const (mems : List Nat) (space : Nat → Nat) (max : Nat) :
    ∀ fuel i st, (∀ j, i ≤ j → j < max → space j = st.mem_id) →
      coalesceLoop mems space max fuel i st = .ok st := by
  intro fuel
  induction fuel with
  | zero => intro i st _; rfl
  | succ n ih =>
    intro i st hall
    rw [coalesceLoop]
    by_cases hi : i < max
    · simp only [if_pos hi]
      rw [if_neg (by simpa using (hall i (Nat.le_refl _) hi))]
      exact ih (i + 1) st (fun j h1 h2 => hall j (by omega) h2)
    · simp [hi]

lemma paint_last_wins (max : Nat) (mems : List Nat) :
    ∀ (rs : List MappingRequest) (space : Nat → Nat) (sp : Nat → Nat) (a : Nat),
      paintAll max mems rs space = .ok sp →
      sp a = rs.foldl
        (fun acc r =>
          if r.addr_start ≤ a ∧ a < r.addr_start + r.byte_cnt then r.mem_id else acc)
        (space a) := by
  intro rs
  induction rs with
  | nil =>
    intro space sp a h
    rw [paintAll] at h
    cases h
    rfl
  | cons r rs ih =>
    intro space sp a h
    rw [paintAll] at h
    by_cases h1 : max < r.addr_start + r.byte_cnt
    · simp [h1] at h
    · simp only [if_neg h1] at h
      cases hg : mems.get? r.mem_id with
      | none => rw [hg] at h; cases h
      | some memCnt =>
        rw [hg] at h
        by_cases h2 : memCnt < r.byte_cnt
        · simp [h2] at h
        · simp only [if_neg h2] at h
          have := ih (paintOne space r) sp a h
          rw [this]
          simp [List.foldl, paintOne]

lemma spaceGap_lo (j : Nat) (h : j < 0x8000) : spaceGap j = 0 := by
  simp [spaceGap, paintOne, h]
lemma spaceGap_hi (j : Nat) (h : 0x8000 ≤ j) : spaceGap j = usizeMAX := by
  simp only [spaceGap, paintOne]
  rw [if_neg (by omega)]
lemma spaceFull_lo (j : Nat) (h : j < 65535) : spaceFull j = 0 := by
  simp [spaceFull, paintOne, h]

end Helpers

/-! ## The claims -/

set_option maxRecDepth 10000 in
/-- Claim C1: `decode_inst` is a total, pure, deterministic function over the
byte range that maps every legal opcode to the (mnemonic, addressing mode)
pair of the published 6502 opcode table (the 151 legal opcodes, including the
compares, branches, jumps/JSR/RTS, BRK/RTI, BIT, NOP and the flag set/clear
operations) and returns `none` for every byte outside the legal set: it
agrees with `published_lookup` on all 256 bytes.  (Totality and determinism
hold because `decode_inst` is a Lean function.) -/
theorem C1_decode_matches_published_table :
    (∀ byte : Nat, byte < 256 → decode_inst byte = published_lookup byte) ∧
    published_opcode_table.length = 151 := by
  constructor
  · decide
  · rfl

/-- Witness for C1 at the JSR opcode 0x20. -/
theorem C1_decode_witness :
    (0x20 : Nat) < 256 ∧ decode_inst 0x20 = published_lookup 0x20 :=
  ⟨by norm_num, C1_decode_matches_published_table.1 0x20 (by norm_num)⟩

/-- Claim C2 (divergence): on the spec's own example — a 0x10000-byte space
with only 0x0000–0x7FFF assigned — `build()` returns
`UnassignedRange(0x8000..0xFFFF)`, not the claimed
`UnassignedRange(0x8000..0x10000)`: the end carried by the error is
`i + (length of the unassigned run after i)`, one short of the exclusive end
of the maximal unassigned run starting at the first unassigned address `i`.
-/
theorem C2_unassigned_range_end :
    layoutGapBuilder.build = .error (.UnassignedRange 0x8000 0xFFFF) ∧
    layoutGapBuilder.build ≠ .error (.UnassignedRange 0x8000 0x10000) := by
  have hfind : findGapFrom spaceGap 0x10000 0x10000 0 = some 0x8000 := by
    apply findGapFrom_some spaceGap 0x10000 0x8000 0x10000 0 (by omega) (by omega)
      (by omega)
    · intro j h1 h2
      rw [spaceGap_lo j h2]
      decide
    · exact spaceGap_hi _ (by omega)
  have hrun : gapRunFrom spaceGap 0x10000 0x10000 0x8001 = 0x7FFF := by
    rw [gapRunFrom_all spaceGap 0x10000 0x10000 0x8001 (by omega)
      (fun j h1 h2 => spaceGap_hi j (by omega))]
  have hpaint : paintAll 0x10000 [0x8000] layoutGapBuilder.mappings (fun _ => usizeMAX)
      = .ok spaceGap := rfl
  have h1 : layoutGapBuilder.build = .error (.UnassignedRange 0x8000 0xFFFF) := by
    simp only [LayoutBuilder.build, layoutGapBuilder] at hpaint ⊢
    rewrite [hpaint, show (Except.ok spaceGap : Except BuildError (Nat → Nat)) =
      (pure spaceGap : Except BuildError (Nat → Nat)) from rfl, pure_bind]
    rewrite [hfind]
    show Except.error (BuildError.UnassignedRange 0x8000
      (0x8000 + gapRunFrom spaceGap 0x10000 0x10000 (0x8000 + 1))) = _
    rewrite [show (0x8000 : Nat) + 1 = 0x8001 from by norm_num, hrun]
    norm_num
  refine ⟨h1, ?_⟩
  intro h
  rw [h1] at h
  injection h with h2
  injection h2 with h3 h4
  omega

/-- Counterexample to claim C3: a builder whose two assignments both cover
address 0 (so they overlap), yet `build()` succeeds — and the produced layout
maps address 0 to the memory of the *later* assignment (id 1), showing the
override. -/
theorem C3_overlap_counterexample :
    overlapBuilder.mappings.all
      (fun r => decide (r.addr_start ≤ 0 ∧ 0 < r.addr_start + r.byte_cnt)) = true ∧
    overlapBuilder.mappings.length = 2 ∧
    (overlapBuilder.build).isOk = true ∧
    (overlapBuilder.build).map (fun l => l.mappings) = .ok [(0, ⟨0, 0, 1⟩)] :=
  ⟨rfl, rfl, rfl, rfl⟩

/-- Claim C3 as amended: `build()` performs no overlap check; when several
`assign_range` requests cover the same address, the later request silently
overrides the earlier one — after a successful painting pass, the owner of an
address is the id of the *last* request covering it (the initial sentinel if
none does). -/
theorem C3_last_assignment_wins (max : Nat) (mems : List Nat)
    (rs : List MappingRequest) (space sp : Nat → Nat) (a : Nat)
    (h : paintAll max mems rs space = .ok sp) :
    sp a = rs.foldl
      (fun acc r =>
        if r.addr_start ≤ a ∧ a < r.addr_start + r.byte_cnt then r.mem_id else acc)
      (space a) :=
  paint_last_wins max mems rs space sp a h

/-- Witness for the amended C3 on the overlapping builder's paint result. -/
theorem C3_last_assignment_wins_witness :
    spaceOverlap 0 = overlapBuilder.mappings.foldl
      (fun acc r =>
        if r.addr_start ≤ 0 ∧ 0 < r.addr_start + r.byte_cnt then r.mem_id else acc)
      ((fun _ => usizeMAX) 0) :=
  C3_last_assignment_wins 1 [1, 1] overlapBuilder.mappings (fun _ => usizeMAX)
    spaceOverlap 0 rfl

/-- Claim C4 (divergence): `CPU::new` compares the byte count against
`u16::MAX as usize` = 65535, so a layout of exactly 65535 bytes — which does
NOT span the full 65,536-address space (address 0xFFFF has no assignment) —
is accepted, contradicting the claim (and the function's own doc comment)
that construction fails for every layout not spanning 0x0000–0xFFFF.  The
65535-byte layout is produced by an actual successful `build()`.  Layouts
below 65535 bytes are rejected, as the claim expects. -/
theorem C4_new_accepts_65535 :
    fullBuilder.build = .ok layout65535 ∧
    layout65535.get_byte_count = 65535 ∧
    (CPU_new layout65535).isSome = true ∧
    (∀ l : Layout, l.get_byte_count < 65535 → CPU_new l = none) := by
  refine ⟨?_, rfl, rfl, ?_⟩
  · have hfind : findGapFrom spaceFull 65535 65535 0 = none := by
      apply findGapFrom_none
      intro j h1 h2
      rw [spaceFull_lo j h2]
      decide
    have hpaint : paintAll 65535 [65535] fullBuilder.mappings (fun _ => usizeMAX)
        = .ok spaceFull := rfl
    have hco : coalesceLoop [65535] spaceFull 65535 65535 0
        { start := 0, mem_id := spaceFull 0, phys := fun _ => 0, maps := [] } =
        .ok stFull := by
      apply coalesceLoop_const
      intro j h1 h2
      rw [spaceFull_lo j h2]
      show (0 : Nat) = spaceFull 0
      rw [spaceFull_lo 0 (by omega)]
    simp only [LayoutBuilder.build, fullBuilder] at hpaint ⊢
    rewrite [hpaint, show (Except.ok spaceFull : Except BuildError (Nat → Nat)) =
      (pure spaceFull : Except BuildError (Nat → Nat)) from rfl, pure_bind]
    rewrite [hfind]
    rewrite [hco, show (Except.ok stFull : Except BuildError CoState) =
      (pure stFull : Except BuildError CoState) from rfl, pure_bind]
    simp only [stFull]
    rewrite [spaceFull_lo 0 (by omega)]
    norm_num
    rfl
  · intro l h
    rw [CPU_new, if_pos h]

/-- Witness for C4's rejection direction at an empty layout. -/
theorem C4_new_witness :
    ({ byte_cnt := 0, mems := [], mappings := [] } : Layout).get_byte_count < 65535 ∧
    CPU_new { byte_cnt := 0, mems := [], mappings := [] } = none :=
  ⟨by decide, C4_new_accepts_65535.2.2.2 _ (by decide)⟩

/-- Claim C5: executing ADC (here with an Immediate operand, opcode 0x69)
computes the 9-bit sum of accumulator, operand and carry-in, sets Carry to
`sum > 255`, Overflow to `((sum ^ A) & (sum ^ operand) & 0x80) != 0`, stores
the sum truncated to 8 bits in A, and derives Negative/Zero from the
truncated result. -/
theorem C5_adc_semantics (m : Machine)
    (hop : m.mem m.pc = 0x69) (ha : m.a < 256)
    (ho : m.mem ((m.pc + 1) % 65536) < 256) :
    (m.step).map (Except.map Machine.a) =
      some (.ok ((m.a + m.mem ((m.pc + 1) % 65536) + cond m.status.carry 1 0) % 256)) ∧
    (m.step).map (Except.map fun m1 => m1.status.carry) =
      some (.ok (decide (255 < m.a + m.mem ((m.pc + 1) % 65536) + cond m.status.carry 1 0))) ∧
    (m.step).map (Except.map fun m1 => m1.status.overflow) =
      some (.ok (decide (0 <
        ((m.a + m.mem ((m.pc + 1) % 65536) + cond m.status.carry 1 0) ^^^ m.a) &&&
        ((m.a + m.mem ((m.pc + 1) % 65536) + cond m.status.carry 1 0) ^^^
          m.mem ((m.pc + 1) % 65536)) &&& 0x80))) ∧
    (m.step).map (Except.map fun m1 => m1.status.negative) =
      some (.ok (decide (0 <
        ((m.a + m.mem ((m.pc + 1) % 65536) + cond m.status.carry 1 0) % 256) &&& 0x80))) ∧
    (m.step).map (Except.map fun m1 => m1.status.zero) =
      some (.ok (decide
        ((m.a + m.mem ((m.pc + 1) % 65536) + cond m.status.carry 1 0) % 256 = 0))) := by
  have hcin : cond m.status.carry 1 0 ≤ 1 := by cases m.status.carry <;> simp
  have hm : (m.a + m.mem ((m.pc + 1) % 65536) + cond m.status.carry 1 0) % 65536
      = m.a + m.mem ((m.pc + 1) % 65536) + cond m.status.carry 1 0 :=
    Nat.mod_eq_of_lt (by omega)
  refine ⟨?_, ?_, ?_, ?_, ?_⟩ <;>
  · simp only [Machine.step, Machine.next_byte, Machine.read_byte, hop]
    rw [show decode_inst 0x69 = some (Inst.ADC, AddressingMode.Immediate) from rfl]
    simp only [Machine.read_byte_addressed, Machine.next_byte, Machine.read_byte,
      adcCore, Machine.setNZ, checkNZ, Option.pure_def, Option.bind_eq_bind,
      Option.bind_some, Option.some_bind, Option.map_some, Option.map_some',
      Except.map, hm]

/-- Witness for C5 on the classic signed-overflow example A=0x50, operand=0x50,
carry-in=0: result 0xA0, Negative set, Overflow set, Carry clear, Zero clear. -/
theorem C5_adc_witness :
    (mAdc50.step).map (Except.map Machine.a) = some (.ok 0xA0) ∧
    (mAdc50.step).map (Except.map fun m1 => m1.status.negative) = some (.ok true) ∧
    (mAdc50.step).map (Except.map fun m1 => m1.status.overflow) = some (.ok true) ∧
    (mAdc50.step).map (Except.map fun m1 => m1.status.carry) = some (.ok false) ∧
    (mAdc50.step).map (Except.map fun m1 => m1.status.zero) = some (.ok false) := by
  obtain ⟨h1, h2, h3, h4, h5⟩ :=
    C5_adc_semantics mAdc50 rfl (by norm_num [mAdc50]) (by decide)
  exact ⟨h1.trans (by rfl), h4.trans (by rfl), h3.trans (by rfl),
    h2.trans (by rfl), h5.trans (by rfl)⟩

/-- Claim C6: the SBC arithmetic (`sbcCore`) coincides with the ADC
arithmetic (`adcCore`) applied to the ones'-complement `operand XOR 0xFF`
with the same carry-in, and — for every 8-bit accumulator, operand and
carry-in — its result, Carry and Overflow match the reference hardware's
two's-complement subtraction `A - operand - (1 - carry)` (`sbc_reference`);
Negative/Zero are derived from the (equal) results.  The closing conjuncts
exhibit the step-level agreement of an executed SBC with the executed ADC on
the complemented operand. -/
theorem C6_sbc_is_adc_complement (a d : Nat) (c : Bool) (ha : a < 256) (hd : d < 256) :
    sbcCore a d (cond c 1 0) = adcCore a (d ^^^ 0xFF) (cond c 1 0) ∧
    sbcCore a d (cond c 1 0) = sbc_reference a d (cond c 1 0) ∧
    (mSbc50.stepOk.a = mAdcC.stepOk.a ∧ mSbc50.stepOk.status = mAdcC.stepOk.status ∧
     mSbc50.stepOk.a = 0x20 ∧ mSbc50.stepOk.status.carry = true) := by
  refine ⟨rfl, ?_, rfl, by decide, rfl, rfl⟩
  have h255 := xor_255 d hd
  cases c <;>
  · simp only [sbcCore, sbc_reference, cond, h255]
    refine Prod.ext ?_ (Prod.ext ?_ ?_)
    · omega
    · simp only [decide_eq_decide]
      omega
    · simp only [decide_eq_decide]
      first
      | rw [overflow_bit_iff a (255 - d) 0 ha (by omega) (by omega),
          toSigned8_compl d hd]
      | rw [overflow_bit_iff a (255 - d) 1 ha (by omega) (by omega),
          toSigned8_compl d hd]
      omega

/-- Witness for C6 at A=0x50, operand=0x30, carry set. -/
theorem C6_sbc_witness :
    sbcCore 0x50 0x30 (cond true 1 0) = adcCore 0x50 (0x30 ^^^ 0xFF) (cond true 1 0) ∧
    sbcCore 0x50 0x30 (cond true 1 0) = sbc_reference 0x50 0x30 (cond true 1 0) ∧
    (mSbc50.stepOk.a = mAdcC.stepOk.a ∧ mSbc50.stepOk.status = mAdcC.stepOk.status ∧
     mSbc50.stepOk.a = 0x20 ∧ mSbc50.stepOk.status.carry = true) :=
  C6_sbc_is_adc_complement 0x50 0x30 true (by norm_num) (by norm_num)

/-- Claim C7: `JSR` (opcode 0x20) pushes the address `PC + 2` of the last
byte of the 3-byte instruction, high byte first, then jumps to the 2-byte
operand; `RTS` (opcode 0x60) pops the saved address low byte first and
increments it by one before resuming; consequently `JSR 0x2000` executed at
PC = 0x1000 followed (after control reaches 0x2000) by `RTS` resumes at
PC = 0x1003. -/
theorem C7_jsr_rts (m mr : Machine)
    (hop : m.mem m.pc = 0x20) (hpc : m.pc + 3 < 65536)
    (hopr : mr.mem mr.pc = 0x60) :
    ((m.step).map (Except.map Machine.pc) =
        some (.ok ((m.mem (m.pc + 2) <<< 8) ||| m.mem (m.pc + 1))) ∧
     m.stepOk.mem (m.sp + 0x100) = ((m.pc + 2) >>> 8) % 256 ∧
     m.stepOk.mem ((m.sp + 255) % 256 + 0x100) = (m.pc + 2) &&& 0xFF ∧
     m.stepOk.sp = (m.sp + 254) % 256) ∧
    ((mr.step).map (Except.map Machine.pc) =
        some (.ok (((mr.mem ((mr.sp + 2) % 256 + 0x100) <<< 8 |||
          mr.mem ((mr.sp + 1) % 256 + 0x100)) + 1) % 65536)) ∧
     (mr.step).map (Except.map Machine.sp) = some (.ok ((mr.sp + 2) % 256)) ∧
     (mr.step).map (Except.map Machine.mem) = some (.ok mr.mem)) ∧
    ((mJSR.step).map (Except.map Machine.pc) = some (.ok 0x2000) ∧
     mJSR.stepOk.mem 0x1FF = 0x10 ∧ mJSR.stepOk.mem 0x1FE = 0x02 ∧
     (mJSR.stepOk.step).map (Except.map Machine.pc) = some (.ok 0x1003)) := by
  have hd20 : decode_inst 0x20 = some (Inst.JSR, AddressingMode.Absolute) := rfl
  have hd60 : decode_inst 0x60 = some (Inst.RTS, AddressingMode.Implied) := rfl
  have e1 : (m.pc + 1) % 65536 = m.pc + 1 := Nat.mod_eq_of_lt (by omega)
  have e2 : (m.pc + 1 + 2) % 65536 = m.pc + 3 := by omega
  have e3 : (m.pc + 3 + 65535) % 65536 = m.pc + 2 := by omega
  have e4 : ((m.sp + 255) % 256 + 255) % 256 = (m.sp + 254) % 256 := by omega
  have e5 : m.pc + 1 + 1 = m.pc + 2 := by omega
  have e6 : ((mr.sp + 1) % 256 + 1) % 256 = (mr.sp + 2) % 256 := by omega
  have hstep : m.step = some (.ok
      { pc := (m.mem (m.pc + 2) <<< 8) ||| m.mem (m.pc + 1),
        sp := (m.sp + 254) % 256,
        a := m.a, x := m.x, y := m.y, status := m.status,
        mem := writeMem (writeMem m.mem (m.sp + 0x100) (((m.pc + 2) >>> 8) % 256))
          ((m.sp + 255) % 256 + 0x100) ((m.pc + 2) &&& 0xFF) }) := by
    simp only [Machine.step, Machine.next_byte, Machine.read_byte, Machine.next_word,
      Machine.read_word, Machine.push_byte, Machine.write_byte, Machine.get_sp,
      hop, hd20, e1, e2, e3, e4, e5]
  have hstepr : mr.step = some (.ok
      { pc := ((mr.mem ((mr.sp + 2) % 256 + 0x100) <<< 8 |||
          mr.mem ((mr.sp + 1) % 256 + 0x100)) + 1) % 65536,
        sp := (mr.sp + 2) % 256,
        a := mr.a, x := mr.x, y := mr.y, status := mr.status,
        mem := mr.mem }) := by
    simp only [Machine.step, Machine.next_byte, Machine.read_byte, Machine.pull_byte,
      Machine.get_sp, hopr, hd60, e6]
  refine ⟨⟨?_, ?_, ?_, ?_⟩, ⟨?_, ?_, ?_⟩, ?_, ?_, ?_, ?_⟩
  · rw [hstep]; rfl
  · simp only [Machine.stepOk, hstep]
    show writeMem (writeMem m.mem (m.sp + 0x100) (((m.pc + 2) >>> 8) % 256))
      ((m.sp + 255) % 256 + 0x100) ((m.pc + 2) &&& 0xFF) (m.sp + 0x100) = _
    rw [writeMem, if_neg (by omega)]
    rw [writeMem, if_pos rfl]
  · simp only [Machine.stepOk, hstep]
    show writeMem (writeMem m.mem (m.sp + 0x100) (((m.pc + 2) >>> 8) % 256))
      ((m.sp + 255) % 256 + 0x100) ((m.pc + 2) &&& 0xFF) ((m.sp + 255) % 256 + 0x100) = _
    rw [writeMem, if_pos rfl]
  · simp only [Machine.stepOk, hstep]
  · rw [hstepr]; rfl
  · rw [hstepr]; rfl
  · rw [hstepr]; rfl
  · rfl
  · rfl
  · rfl
  · rfl

/-- Witness for C7: the JSR/RTS round trip on the concrete machine `mJSR`. -/
theorem C7_jsr_rts_witness :
    ((mJSR.step).map (Except.map Machine.pc) =
        some (.ok ((mJSR.mem (mJSR.pc + 2) <<< 8) ||| mJSR.mem (mJSR.pc + 1))) ∧
     mJSR.stepOk.mem (mJSR.sp + 0x100) = ((mJSR.pc + 2) >>> 8) % 256 ∧
     mJSR.stepOk.mem ((mJSR.sp + 255) % 256 + 0x100) = (mJSR.pc + 2) &&& 0xFF ∧
     mJSR.stepOk.sp = (mJSR.sp + 254) % 256) ∧
    ((mJSR.stepOk.step).map (Except.map Machine.pc) =
        some (.ok (((mJSR.stepOk.mem ((mJSR.stepOk.sp + 2) % 256 + 0x100) <<< 8 |||
          mJSR.stepOk.mem ((mJSR.stepOk.sp + 1) % 256 + 0x100)) + 1) % 65536)) ∧
     (mJSR.stepOk.step).map (Except.map Machine.sp) =
        some (.ok ((mJSR.stepOk.sp + 2) % 256)) ∧
     (mJSR.stepOk.step).map (Except.map Machine.mem) = some (.ok mJSR.stepOk.mem)) ∧
    ((mJSR.step).map (Except.map Machine.pc) = some (.ok 0x2000) ∧
     mJSR.stepOk.mem 0x1FF = 0x10 ∧ mJSR.stepOk.mem 0x1FE = 0x02 ∧
     (mJSR.stepOk.step).map (Except.map Machine.pc) = some (.ok 0x1003)) :=
  C7_jsr_rts mJSR mJSR.stepOk rfl (by norm_num [mJSR]) rfl

/-- Claim C8: a stack push writes exactly one byte, at `0x100 + SP` (inside
page 1, 0x0100–0x01FF), then decrements `SP` modulo 256; a pull increments
`SP` modulo 256 and reads `0x100 + SP` (inside page 1) without touching
memory; 256 consecutive pushes return `SP` to its starting value and write
nothing outside page 1. -/
theorem C8_stack_page_one (m : Machine) (d : Nat) (ds : List Nat)
    (hsp : m.sp < 256) (hlen : ds.length = 256) :
    ((m.push_byte d).mem m.get_sp = d ∧
     (∀ addr, addr ≠ m.get_sp → (m.push_byte d).mem addr = m.mem addr) ∧
     0x100 ≤ m.get_sp ∧ m.get_sp ≤ 0x1FF ∧
     (m.push_byte d).sp = (m.sp + 255) % 256 ∧ (m.push_byte d).sp < 256) ∧
    ((m.pull_byte).1.sp = (m.sp + 1) % 256 ∧
     (m.pull_byte).2 = m.mem ((m.sp + 1) % 256 + 0x100) ∧
     (m.pull_byte).1.mem = m.mem ∧
     0x100 ≤ (m.pull_byte).1.get_sp ∧ (m.pull_byte).1.get_sp ≤ 0x1FF) ∧
    ((pushList m ds).sp = m.sp ∧
     (∀ addr, addr < 0x100 ∨ 0x1FF < addr → (pushList m ds).mem addr = m.mem addr)) := by
  refine ⟨⟨?_, ?_, ?_, ?_, rfl, ?_⟩, ⟨rfl, rfl, rfl, ?_, ?_⟩, ?_, ?_⟩
  · show writeMem m.mem (m.sp + 0x100) d (m.sp + 0x100) = d
    rw [writeMem, if_pos rfl]
  · intro addr h
    show writeMem m.mem (m.sp + 0x100) d addr = m.mem addr
    rw [writeMem, if_neg (by simpa [Machine.get_sp] using h)]
  · show 0x100 ≤ m.sp + 0x100
    omega
  · show m.sp + 0x100 ≤ 0x1FF
    omega
  · show (m.sp + 255) % 256 < 256
    omega
  · show 0x100 ≤ (m.sp + 1) % 256 + 0x100
    omega
  · show (m.sp + 1) % 256 + 0x100 ≤ 0x1FF
    omega
  · rw [pushList_sp ds m hsp, hlen]
    omega
  · intro addr h
    exact pushList_mem_outside ds m hsp addr h

/-- Witness for C8 with SP = 0xFF and 256 pushed zero bytes. -/
theorem C8_stack_witness :
    let m0 : Machine :=
      { pc := 0, sp := 0xFF, a := 0, x := 0, y := 0, status := Status.default,
        mem := fun _ => 0 }
    ((m0.push_byte 7).mem m0.get_sp = 7 ∧
     (∀ addr, addr ≠ m0.get_sp → (m0.push_byte 7).mem addr = m0.mem addr) ∧
     0x100 ≤ m0.get_sp ∧ m0.get_sp ≤ 0x1FF ∧
     (m0.push_byte 7).sp = (m0.sp + 255) % 256 ∧ (m0.push_byte 7).sp < 256) ∧
    ((m0.pull_byte).1.sp = (m0.sp + 1) % 256 ∧
     (m0.pull_byte).2 = m0.mem ((m0.sp + 1) % 256 + 0x100) ∧
     (m0.pull_byte).1.mem = m0.mem ∧
     0x100 ≤ (m0.pull_byte).1.get_sp ∧ (m0.pull_byte).1.get_sp ≤ 0x1FF) ∧
    ((pushList m0 (List.replicate 256 0)).sp = m0.sp ∧
     (∀ addr, addr < 0x100 ∨ 0x1FF < addr →
        (pushList m0 (List.replicate 256 0)).mem addr = m0.mem addr)) :=
  C8_stack_page_one _ 7 (List.replicate 256 0) (by norm_num)
    (by rw [List.length_replicate])

set_option maxRecDepth 4000 in
/-- Claim C9: with Interrupt-disable set, `irq()` is the identity on the
whole machine state (registers, SP, PC, flags and memory); with it clear,
`irq()` pushes `PC` high then low, pushes the status byte with Break cleared,
leaves the other registers and all other memory unchanged, sets
Interrupt-disable, and loads `PC` from the IRQ vector word at 0xFFFE. -/
theorem C9_irq_semantics (m : Machine) :
    (m.status.int_disable = true → m.irq = m) ∧
    (m.status.int_disable = false →
      (m.irq).a = m.a ∧ (m.irq).x = m.x ∧ (m.irq).y = m.y ∧
      (m.irq).sp = (m.sp + 253) % 256 ∧
      (m.irq).status = { m.status with int_disable := true } ∧
      (m.irq).mem (m.sp + 0x100) = (m.pc >>> 8) % 256 ∧
      (m.irq).mem ((m.sp + 255) % 256 + 0x100) = m.pc &&& 0xFF ∧
      (m.irq).mem ((m.sp + 254) % 256 + 0x100) =
        statusToByte { m.status with break_ := false } ∧
      (∀ addr, addr ≠ m.sp + 0x100 → addr ≠ (m.sp + 255) % 256 + 0x100 →
        addr ≠ (m.sp + 254) % 256 + 0x100 → (m.irq).mem addr = m.mem addr) ∧
      (m.irq).pc = (m.irq).read_word 0xFFFE) := by
  constructor
  · intro h
    rw [Machine.irq, if_pos h]
  · intro h
    have hni : ¬ (m.status.int_disable = true) := by rw [h]; exact Bool.false_ne_true
    have e4 : ((m.sp + 255) % 256 + 255) % 256 = (m.sp + 254) % 256 := by omega
    rw [Machine.irq, if_neg hni]
    simp only [Machine.push_byte, Machine.write_byte, Machine.get_sp,
      Machine.read_word, Machine.read_byte, e4]
    refine ⟨trivial, trivial, trivial, by omega, trivial, ?_, ?_, ?_, ?_, trivial⟩
    · rw [writeMem, if_neg (by omega), writeMem, if_neg (by omega), writeMem,
        if_pos rfl]
    · rw [writeMem, if_neg (by omega), writeMem, if_pos rfl]
    · rw [writeMem, if_pos rfl]
    · intro addr h1 h2 h3
      rw [writeMem, if_neg h3, writeMem, if_neg h2, writeMem, if_neg h1]

/-- Witness for C9 at a concrete enabled machine. -/
theorem C9_irq_witness :
    let m0 : Machine :=
      { pc := 0x1234, sp := 0x80, a := 1, x := 2, y := 3,
        status := Status.default, mem := fun _ => 0 }
    (m0.status.int_disable = true → m0.irq = m0) ∧
    (m0.status.int_disable = false →
      (m0.irq).a = m0.a ∧ (m0.irq).x = m0.x ∧ (m0.irq).y = m0.y ∧
      (m0.irq).sp = (m0.sp + 253) % 256 ∧
      (m0.irq).status = { m0.status with int_disable := true } ∧
      (m0.irq).mem (m0.sp + 0x100) = (m0.pc >>> 8) % 256 ∧
      (m0.irq).mem ((m0.sp + 255) % 256 + 0x100) = m0.pc &&& 0xFF ∧
      (m0.irq).mem ((m0.sp + 254) % 256 + 0x100) =
        statusToByte { m0.status with break_ := false } ∧
      (∀ addr, addr ≠ m0.sp + 0x100 → addr ≠ (m0.sp + 255) % 256 + 0x100 →
        addr ≠ (m0.sp + 254) % 256 + 0x100 → (m0.irq).mem addr = m0.mem addr) ∧
      (m0.irq).pc = (m0.irq).read_word 0xFFFE) :=
  C9_irq_semantics _

/-- Claim C10: the address arithmetic of `read_word` (`addr + 1`) and of the
IndirectY resolution (`pointer word + Y`) is plain, non-wrapping addition.
On the concrete reachable machine `mIY` (an `LDA (zp),Y` whose zero-page
pointer holds 0xFFFF with Y = 1) the effective address is 65536 — outside
the 16-bit space, where wrapping semantics would give 0 — and the executed
step loads the model byte living at 65536, not the byte at 0.  Likewise
`read_word 0xFFFF` takes its high byte from address 0x10000, not from
address 0. -/
theorem C10_nonwrapping_addresses :
    ((mIYop.read_byte_addressed AddressingMode.IndirectY).map (fun r => r.2.1)
        = some 65536 ∧
     mIY.stepOk.a = mIY.mem 65536 ∧ mIY.mem 65536 = 0xAB ∧
     mIY.mem (65536 % 65536) = 0) ∧
    (mRW.read_word 0xFFFF = 0x0700 ∧ mRW.mem (0xFFFF + 1) = 0x07 ∧
     mRW.mem ((0xFFFF + 1) % 65536) = 0) :=
  ⟨⟨rfl, rfl, rfl, rfl⟩, rfl, rfl, rfl⟩

end TbO2
